import Mathlib

/-!
# Verification of the graceful-shutdown subsystem of emby-downloader

Shallow embedding of `src/signal_handler.py` (ShutdownCoordinator,
SignalHandler, CleanupHandler, ShutdownContext), the cooperative
cancellation hook in `src/downloader.py` (`Downloader.download_file`),
and the exit-code behaviour of `src/main.py`.

Times and durations are modelled as rationals (Python uses float
seconds; no float rounding is relevant to any claim).  A cleanup
callable is modelled by its observable behaviour: it either settles
successfully after some time, raises an exception after some time, or
never settles.  The asyncio scheduling of `_cleanup_resources`
(`create_task` fan-out, `gather(return_exceptions=True)` wrapped in
`wait_for(timeout=...)`) is embedded as a function from those
behaviours to the records the code produces (log lines / cancellations)
and the elapsed time.
-/

namespace EmbyShutdown

/-- Identifier standing for a registered cleanup callable
(`handler: Callable[[], None]` in the source); the callable's observable
behaviour is supplied separately by an environment `HandlerId → Behavior`. -/
abbrev HandlerId := Nat

/-- `CleanupHandler` dataclass, src/signal_handler.py lines 28-34:
`name`, `handler`, `priority: int = 0`, `timeout: float = 5.0`. -/
structure CleanupHandler where
  name : String
  handler : HandlerId
  priority : Int := 0
  timeout : ℚ := 5
deriving DecidableEq, Repr

/-- `ShutdownContext` dataclass, src/signal_handler.py lines 20-26:
`signal_type`, `timestamp`, `force_shutdown: bool = False`,
`timeout_seconds: int = 10`. -/
structure ShutdownContext where
  signal_type : String
  timestamp : ℚ
  force_shutdown : Bool := false
  timeout_seconds : ℚ := 10
deriving DecidableEq, Repr

/-- Mutable state of a `ShutdownCoordinator`, src/signal_handler.py
lines 39-44 (`__init__`): `_shutdown_requested = False`,
`_shutdown_event` (modelled by whether it is set), `_cleanup_handlers = []`,
`_current_operation = "idle"`. -/
structure CoordState where
  shutdown_requested : Bool := false
  shutdown_event : Bool := false
  cleanup_handlers : List CleanupHandler := []
  current_operation : String := "idle"
deriving DecidableEq, Repr

/-- Observable behaviour of a cleanup callable once started:
settles successfully after `t` seconds, raises an exception after `t`
seconds, or never settles. -/
inductive Behavior where
  | ok (t : ℚ)
  | err (t : ℚ)
  | never
deriving DecidableEq, Repr

/-- Time at which a behaviour settles, if it ever does. -/
def Behavior.settleTime : Behavior → Option ℚ
  | .ok t => some t
  | .err t => some t
  | .never => none

/-- Whether a behaviour settles (success or exception) within `T` seconds. -/
def Behavior.settledWithin (T : ℚ) : Behavior → Bool
  | .ok t => decide (t ≤ T)
  | .err t => decide (t ≤ T)
  | .never => false

/-- `ShutdownCoordinator.is_shutdown_requested`, src/signal_handler.py
lines 46-48. -/
def is_shutdown_requested (st : CoordState) : Bool :=
  st.shutdown_requested

/-- `ShutdownCoordinator.set_current_operation`, src/signal_handler.py
lines 54-57. -/
def set_current_operation (st : CoordState) (operation : String) : CoordState :=
  { st with current_operation := operation }

/-- Priority comparison used by `self._cleanup_handlers.sort(key=lambda
x: x.priority, reverse=True)` (src/signal_handler.py line 64): `a`
may come no later than `b` iff `b.priority ≤ a.priority` (descending). -/
def lePrio (a b : CleanupHandler) : Prop :=
  b.priority ≤ a.priority

instance : DecidableRel lePrio := fun a b =>
  inferInstanceAs (Decidable (b.priority ≤ a.priority))

instance : IsTotal CleanupHandler lePrio :=
  ⟨fun a b => (le_total b.priority a.priority).imp id id⟩

instance : IsTrans CleanupHandler lePrio :=
  ⟨fun _ _ _ h1 h2 => le_trans h2 h1⟩

/-- `ShutdownCoordinator.register_cleanup_handler`, src/signal_handler.py
lines 59-65: construct `CleanupHandler(name, handler, priority)` (the
`timeout` field keeps its default `5.0`), append it, then stably sort the
list by descending priority.  Python's `list.sort` is a stable sort; any
stable sort computes the same list, so it is embedded as Mathlib's
(stable) insertion sort under `lePrio`. -/
def register_cleanup_handler (st : CoordState) (name : String) (handler : HandlerId)
    (priority : Int) : CoordState :=
  { st with cleanup_handlers :=
      List.insertionSort lePrio (st.cleanup_handlers ++ [⟨name, handler, priority, 5⟩]) }

/-- Per-action record, as the normal (no aggregate timeout) branch of
`_cleanup_resources` produces it (src/signal_handler.py lines 123-131):
`completed` / `failed` for done tasks, `timedOut` (plus a cancel) for a
task not done when `gather` returned, and `cancelled` for tasks
cancelled by the aggregate-timeout branch (lines 133-138). -/
inductive ActionRecord where
  | completed (name : String)
  | failed (name : String)
  | timedOut (name : String)
  | cancelled (name : String)
deriving DecidableEq, Repr

/-- Result of one run of `_cleanup_resources`: the names of the actions
in the order their tasks were created (the loop at lines 98-109), the
per-action records, the elapsed time, and whether the final
`"Shutdown complete"` line (line 143) was reached. -/
structure CleanupReport where
  started : List String
  records : List ActionRecord
  elapsed : ℚ
  summaryPrinted : Bool
deriving DecidableEq, Repr

/-- Latest settle time among a list of handlers (the time at which
`asyncio.gather` over their tasks returns, when all of them settle). -/
def finishTime (env : HandlerId → Behavior) : List CleanupHandler → ℚ
  | [] => 0
  | h :: hs => max ((env h.handler).settleTime.getD 0) (finishTime env hs)

/-- The per-task inspection of the normal branch of `_cleanup_resources`
(src/signal_handler.py lines 123-131): a done task is recorded as failed
if it holds an exception pending, otherwise as completed; a task that is
somehow not done is logged as timed out and cancelled.  The record for a
task depends only on that task's own behaviour. -/
def recordOf (T : ℚ) (env : HandlerId → Behavior) (h : CleanupHandler) : ActionRecord :=
  if (env h.handler).settledWithin T then
    match env h.handler with
    | .err _ => .failed h.name
    | _ => .completed h.name
  else .timedOut h.name

/-- `ShutdownCoordinator._cleanup_resources`, src/signal_handler.py lines
92-143.  Tasks are created in registry order (lines 98-109; task creation
itself cannot fail in the model, so the `except` at line 111 is never
taken).  `asyncio.wait_for(asyncio.gather(..., return_exceptions=True),
timeout=context.timeout_seconds)` either returns — exactly when every
behaviour settles within the aggregate timeout — whereupon each task is
inspected by `recordOf`, or raises `asyncio.TimeoutError` at the
aggregate timeout (lines 133-138), whereupon every task that is not done
is cancelled.  Both branches fall through to the final summary prints
(lines 140-143); no exception escapes. -/
def cleanup_resources (context : ShutdownContext) (handlers : List CleanupHandler)
    (env : HandlerId → Behavior) : CleanupReport :=
  let T := context.timeout_seconds
  let allSettled := handlers.all fun h => (env h.handler).settledWithin T
  if allSettled then
    { started := handlers.map (·.name)
      records := handlers.map (recordOf T env)
      elapsed := finishTime env handlers
      summaryPrinted := true }
  else
    { started := handlers.map (·.name)
      records := handlers.filterMap fun h =>
        if (env h.handler).settledWithin T then none else some (.cancelled h.name)
      elapsed := T
      summaryPrinted := true }

/-- One full shutdown episode as driven by `initiate_shutdown`: the
context it constructed and the cleanup report it produced. -/
structure ShutdownRun where
  context : ShutdownContext
  report : CleanupReport
deriving DecidableEq, Repr

/-- `ShutdownCoordinator.initiate_shutdown`, src/signal_handler.py lines
67-90.  If shutdown was already requested and `force` is false, it
returns immediately (`none`: nothing printed, no cleanup).  Otherwise it
constructs a `ShutdownContext` (with the default `timeout_seconds = 10`),
prints the banner, sets `_shutdown_requested` and the event, and awaits
`_cleanup_resources`. -/
def initiate_shutdown (st : CoordState) (signal_type : String) (force : Bool)
    (now : ℚ) (env : HandlerId → Behavior) : CoordState × Option ShutdownRun :=
  if st.shutdown_requested && !force then
    (st, none)
  else
    let context : ShutdownContext :=
      { signal_type := signal_type, timestamp := now, force_shutdown := force }
    let st' := { st with shutdown_requested := true, shutdown_event := true }
    (st', some { context := context, report := cleanup_resources context st'.cleanup_handlers env })

/-- The public operations of `ShutdownCoordinator` (src/signal_handler.py
lines 46-90), as an instruction type for reasoning about arbitrary call
sequences. -/
inductive CoordOp where
  | isShutdownRequested
  | getShutdownEvent
  | setCurrentOperation (operation : String)
  | registerCleanupHandler (name : String) (handler : HandlerId) (priority : Int)
  | initiateShutdown (signal_type : String) (force : Bool) (now : ℚ)
deriving DecidableEq, Repr

/-- State transition of the coordinator under one public operation.
`is_shutdown_requested` and `get_shutdown_event` are pure reads;
`set_current_operation`, `register_cleanup_handler` and
`initiate_shutdown` update state as in the source. -/
def coordStep (env : HandlerId → Behavior) (st : CoordState) : CoordOp → CoordState
  | .isShutdownRequested => st
  | .getShutdownEvent => st
  | .setCurrentOperation s => set_current_operation st s
  | .registerCleanupHandler n h p => register_cleanup_handler st n h p
  | .initiateShutdown s f now => (initiate_shutdown st s f now env).1

/-- Mutable state of `SignalHandler`, src/signal_handler.py lines
148-153: `_signal_count = 0`, `_last_signal_time = None`.  The constants
`_force_threshold = 2` and `_rapid_signal_window = 2.0` are embedded
below. -/
structure SignalHandlerState where
  signal_count : Nat := 0
  last_signal_time : Option ℚ := none
deriving DecidableEq, Repr

/-- `self._force_threshold = 2`, src/signal_handler.py line 152. -/
def force_threshold : Nat := 2

/-- `self._rapid_signal_window = 2.0`, src/signal_handler.py line 153. -/
def rapid_signal_window : ℚ := 2

/-- `SignalHandler._handle_sigint`, src/signal_handler.py lines 170-195:
update the rapid-signal counter from the time since the last signal,
record the current time, and schedule
`initiate_shutdown("SIGINT", force=signal_count ≥ force_threshold)`.
Returns the new observer state and the scheduled request
`(signal_type, forced)`. -/
def handle_sigint (st : SignalHandlerState) (now : ℚ) :
    SignalHandlerState × String × Bool :=
  let count :=
    match st.last_signal_time with
    | some t => if now - t < rapid_signal_window then st.signal_count + 1 else 1
    | none => 1
  let force_shutdown := decide (count ≥ force_threshold)
  ({ signal_count := count, last_signal_time := some now }, "SIGINT", force_shutdown)

/-- `SignalHandler._handle_sigterm`, src/signal_handler.py lines 197-204:
always schedules `initiate_shutdown("SIGTERM", force=True)`; no history
tracking. -/
def handle_sigterm (st : SignalHandlerState) : SignalHandlerState × String × Bool :=
  (st, "SIGTERM", true)

/-- Outcome of `Downloader.download_file`, src/downloader.py lines
28-100.  `ret` is the returned boolean; `fileExists` whether the output
file is present afterwards; `chunksWritten` how many chunks were written
to it; `printedCancelled` / `printedComplete` / `printedError` which of
the three console messages was emitted. -/
structure DownloadResult where
  ret : Bool
  fileExists : Bool
  chunksWritten : Nat
  printedCancelled : Bool
  printedComplete : Bool
  printedError : Bool
deriving DecidableEq, Repr

/-- The chunk loop of `download_file` (src/downloader.py lines 80-93):
before writing chunk number `i` the code polls
`shutdown_coordinator.is_shutdown_requested()`; if the coordinator is
present and reports true, it prints the cancelled message, unlinks the
partially written file and returns `False`; otherwise the chunk is
written and the loop continues.  After the loop the success message is
printed and `True` returned.  `shut i` is the value of the poll at the
`i`-th chunk boundary. -/
def downloadLoop (hasCoordinator : Bool) (shut : Nat → Bool) :
    List Nat → Nat → Nat → DownloadResult
  | [], _, written =>
    { ret := true, fileExists := true, chunksWritten := written
      printedCancelled := false, printedComplete := true, printedError := false }
  | _ :: rest, i, written =>
    if hasCoordinator && shut i then
      { ret := false, fileExists := false, chunksWritten := written
        printedCancelled := true, printedComplete := false, printedError := false }
    else
      downloadLoop hasCoordinator shut rest (i + 1) (written + 1)

/-- `Downloader.download_file`, src/downloader.py lines 28-100.
`httpError` models `httpx.HTTPError` raised by the request before any
chunk is received (`raise_for_status`, line 54): the handler at lines
95-97 prints the error message and returns `False` (the output file was
never created).  Otherwise the body is consumed chunk by chunk through
`downloadLoop`. -/
def download_file (hasCoordinator : Bool) (shut : Nat → Bool) (httpError : Bool)
    (chunks : List Nat) : DownloadResult :=
  if httpError then
    { ret := false, fileExists := false, chunksWritten := 0
      printedCancelled := false, printedComplete := false, printedError := true }
  else
    downloadLoop hasCoordinator shut chunks 0 0

/-- The exit-code behaviour of `main` (src/main.py lines 366-379 and
`asyncio.run(main())` at line 382): `sys.exit(1)` is reached exactly when
an unexpected exception escapes the `try` body; on every other path
`main` returns and the process exits with code 0.  Nothing in `main`
inspects the cleanup records, so they are a parameter the result ignores. -/
def mainExitCode (_shutdownRun : Option ShutdownRun) (unexpectedError : Bool) : Nat :=
  if unexpectedError then 1 else 0

/-- The startup and shutdown skeleton of `main` (src/main.py lines
169-194 and 366-382): construct the coordinator, register
`"emby_client"` with priority 1 and `"downloader"` with priority 2
(lines 192-194), run; SIGINT deliveries at the given times flow through
`SignalHandler._handle_sigint` into `initiate_shutdown`; finally the
process exits with `mainExitCode`. -/
def main_run (env : HandlerId → Behavior) (sigints : List ℚ) (unexpectedError : Bool) :
    CoordState × List (Option ShutdownRun) × Nat :=
  let st0 : CoordState := {}
  let st1 := register_cleanup_handler st0 "emby_client" 0 1
  let st2 := register_cleanup_handler st1 "downloader" 1 2
  let result := sigints.foldl
    (fun (acc : SignalHandlerState × CoordState × List (Option ShutdownRun)) t =>
      let (sig, coord, runs) := acc
      let (sig', _, forced) := handle_sigint sig t
      let (coord', run) := initiate_shutdown coord "SIGINT" forced t env
      (sig', coord', runs ++ [run]))
    (({} : SignalHandlerState), st2, [])
  (result.2.1, result.2.2, mainExitCode (result.2.2.getLast?.getD none) unexpectedError)

/-! ## Instrumented registry: registration-order tags

To state and prove stability of the registration order, each registered
handler is tagged with its position in the registration sequence.  The
tag is a ghost annotation: the priority comparison ignores it, and
`map Prod.snd` recovers the untagged registry of the source model. -/

/-- Tag a list with consecutive indices starting at `n`. -/
def tag (n : Nat) : List CleanupHandler → List (Nat × CleanupHandler)
  | [] => []
  | h :: hs => (n, h) :: tag (n + 1) hs

/-- The priority comparison of `list.sort(key=..., reverse=True)` lifted
to tagged handlers; it ignores the tag. -/
def lePrioT (a b : Nat × CleanupHandler) : Prop :=
  b.2.priority ≤ a.2.priority

instance : DecidableRel lePrioT := fun a b =>
  inferInstanceAs (Decidable (b.2.priority ≤ a.2.priority))

instance : IsTotal (Nat × CleanupHandler) lePrioT :=
  ⟨fun a b => (le_total b.2.priority a.2.priority).imp id id⟩

instance : IsTrans (Nat × CleanupHandler) lePrioT :=
  ⟨fun _ _ _ h1 h2 => le_trans h2 h1⟩

/-- The specification order: descending priority, ties broken by
registration index (earlier registration first). -/
def lexRel (a b : Nat × CleanupHandler) : Prop :=
  b.2.priority < a.2.priority ∨ (a.2.priority = b.2.priority ∧ a.1 ≤ b.1)

instance : DecidableRel lexRel := fun a b =>
  inferInstanceAs
    (Decidable (b.2.priority < a.2.priority ∨ (a.2.priority = b.2.priority ∧ a.1 ≤ b.1)))

instance : IsTotal (Nat × CleanupHandler) lexRel := by
  constructor
  intro a b
  rcases lt_trichotomy a.2.priority b.2.priority with h | h | h
  · exact Or.inr (Or.inl h)
  · rcases Nat.le_total a.1 b.1 with h' | h'
    · exact Or.inl (Or.inr ⟨h, h'⟩)
    · exact Or.inr (Or.inr ⟨h.symm, h'⟩)
  · exact Or.inl (Or.inl h)

instance : IsTrans (Nat × CleanupHandler) lexRel := by
  constructor
  rintro a b c (h1 | ⟨h1, h1'⟩) (h2 | ⟨h2, h2'⟩)
  · exact Or.inl (by omega)
  · exact Or.inl (by omega)
  · exact Or.inl (by omega)
  · exact Or.inr ⟨by omega, by omega⟩

/-- Tagged version of the source registry evolution: starting from the
empty registry, each registration appends the (tagged) handler and then
stably re-sorts by descending priority, exactly as
`register_cleanup_handler` does at each call. -/
def taggedRegistry (regs : List CleanupHandler) : List (Nat × CleanupHandler) :=
  (tag 0 regs).foldl (fun acc x => List.insertionSort lePrioT (acc ++ [x])) []

/-- The order the specification demands: one stable sort of the whole
registration sequence by descending priority, ties broken by
registration order (the index assigned by `tag`). -/
def stableSortSpec (regs : List CleanupHandler) : List (Nat × CleanupHandler) :=
  List.insertionSort lexRel (tag 0 regs)

theorem tag_append (x : CleanupHandler) :
    ∀ (l : List CleanupHandler) (n : Nat),
      tag n (l ++ [x]) = tag n l ++ [(n + l.length, x)] := by
  intro l
  induction l with
  | nil => intro n; simp [tag]
  | cons h hs ih =>
    intro n
    show (n, h) :: tag (n + 1) (hs ++ [x]) =
      (n, h) :: tag (n + 1) hs ++ [(n + (hs.length + 1), x)]
    rw [ih (n + 1)]
    have hn : n + 1 + hs.length = n + (hs.length + 1) := by omega
    rw [hn]
    rfl

theorem map_snd_tag : ∀ (l : List CleanupHandler) (n : Nat),
    (tag n l).map Prod.snd = l
  | [], _ => rfl
  | h :: hs, n => by simp [tag, map_snd_tag hs (n + 1)]

theorem map_fst_tag : ∀ (l : List CleanupHandler) (n : Nat),
    (tag n l).map Prod.fst = List.range' n l.length
  | [], _ => rfl
  | h :: hs, n => by simp [tag, map_fst_tag hs (n + 1), List.range']

theorem mem_tag_lt :
    ∀ (l : List CleanupHandler) (n : Nat) (p : Nat × CleanupHandler),
      p ∈ tag n l → p.1 < n + l.length
  | [], _, _, hp => by cases hp
  | h :: hs, n, p, hp => by
    rcases List.mem_cons.mp hp with rfl | hp
    · simp
    · have := mem_tag_lt hs (n + 1) p hp
      simp only [List.length_cons]
      omega

/-- A lexicographically sorted list with distinct tags is determined by
its multiset of elements: the stable-sort order is unique. -/
theorem sorted_lex_unique :
    ∀ {l₁ l₂ : List (Nat × CleanupHandler)}, l₁.Perm l₂ →
      l₁.Sorted lexRel → l₂.Sorted lexRel → (l₁.map Prod.fst).Nodup → l₁ = l₂ := by
  intro l₁
  induction l₁ with
  | nil =>
    intro l₂ hp _ _ _
    exact (hp.symm.eq_nil).symm
  | cons a t₁ ih =>
    intro l₂ hp hs₁ hs₂ hn
    cases l₂ with
    | nil => exact absurd hp.eq_nil (by simp)
    | cons b t₂ =>
      have hb : b ∈ a :: t₁ := hp.symm.subset (List.mem_cons_self b t₂)
      have hab : a = b := by
        rcases List.mem_cons.mp hb with h | hbt₁
        · exact h.symm
        · have ha : a ∈ b :: t₂ := hp.subset (List.mem_cons_self a t₁)
          have hat₂ : a ∈ t₂ := by
            rcases List.mem_cons.mp ha with h | h
            · exact absurd (h ▸ hbt₁)
                (by
                  have := (List.nodup_cons.mp hn).1
                  intro hmem
                  exact this (List.mem_map_of_mem Prod.fst hmem))
            · exact h
          have h1 : lexRel a b := List.rel_of_sorted_cons hs₁ b hbt₁
          have h2 : lexRel b a := List.rel_of_sorted_cons hs₂ a hat₂
          have hfst : a.1 = b.1 := by
            rcases h1 with h1 | ⟨h1p, h1i⟩ <;> rcases h2 with h2 | ⟨h2p, h2i⟩ <;> omega
          exact absurd hfst
            (by
              have := (List.nodup_cons.mp hn).1
              intro heq
              exact this (heq ▸ List.mem_map_of_mem Prod.fst hbt₁))
      subst hab
      have htp : t₁.Perm t₂ := hp.cons_inv
      have := ih htp hs₁.of_cons hs₂.of_cons (List.nodup_cons.mp hn).2
      rw [this]

/-- Crux of stability: re-sorting (stably, by priority alone) a
lexicographically sorted list with one fresh maximal-tag element
appended inserts that element after every equal-priority element —
i.e. it performs exactly the lexicographic ordered insertion. -/
theorem insertionSort_append_last :
    ∀ {l : List (Nat × CleanupHandler)} {x : Nat × CleanupHandler},
      l.Sorted lexRel → (∀ p ∈ l, p.1 < x.1) →
      List.insertionSort lePrioT (l ++ [x]) = List.orderedInsert lexRel x l := by
  intro l
  induction l with
  | nil => intro x _ _; rfl
  | cons a t ih =>
    intro x hs hidx
    have hst : t.Sorted lexRel := hs.of_cons
    have hat : ∀ y ∈ t, lexRel a y := List.rel_of_sorted_cons hs
    have hax : a.1 < x.1 := hidx a (List.mem_cons_self a t)
    have hLHS : List.insertionSort lePrioT ((a :: t) ++ [x]) =
        List.orderedInsert lePrioT a (List.orderedInsert lexRel x t) := by
      have : List.insertionSort lePrioT ((a :: t) ++ [x]) =
          List.orderedInsert lePrioT a (List.insertionSort lePrioT (t ++ [x])) := rfl
      rw [this, ih hst (fun p hp => hidx p (List.mem_cons_of_mem a hp))]
    by_cases hxa : lexRel x a
    · have hpa : a.2.priority < x.2.priority := by
        rcases hxa with h | ⟨_, hix⟩
        · exact h
        · omega
      have hxt : List.orderedInsert lexRel x t = x :: t := by
        cases t with
        | nil => rfl
        | cons y ys =>
          have hy : lexRel x y := by
            rcases hat y (List.mem_cons_self y ys) with h | ⟨h, _⟩
            · exact Or.inl (by omega)
            · exact Or.inl (by omega)
          simp only [List.orderedInsert]
          rw [if_pos hy]
      have hta : List.orderedInsert lePrioT a t = a :: t := by
        cases t with
        | nil => rfl
        | cons y ys =>
          have hy : lePrioT a y := by
            rcases hat y (List.mem_cons_self y ys) with h | ⟨h, _⟩
            · exact le_of_lt h
            · exact le_of_eq h.symm
          simp only [List.orderedInsert]
          rw [if_pos hy]
      have hnax : ¬ lePrioT a x := not_le.mpr hpa
      rw [hLHS, hxt]
      simp only [List.orderedInsert]
      rw [if_neg hnax, hta, if_pos hxa]
    · have hxa' : lePrioT a x := by
        obtain ⟨h1, -⟩ := not_or.mp hxa
        exact le_of_not_lt h1
      rw [hLHS]
      have hRHS : List.orderedInsert lexRel x (a :: t) =
          a :: List.orderedInsert lexRel x t := by
        simp only [List.orderedInsert]
        rw [if_neg hxa]
      rw [hRHS]
      cases hoi : List.orderedInsert lexRel x t with
      | nil => rfl
      | cons z zs =>
        have hz : z ∈ List.orderedInsert lexRel x t := by
          rw [hoi]; exact List.mem_cons_self z zs
        have haz : lePrioT a z := by
          rcases (List.mem_orderedInsert lexRel).mp hz with h | h
          · exact h ▸ hxa'
          · rcases hat z h with h' | ⟨h', _⟩
            · exact le_of_lt h'
            · exact le_of_eq h'.symm
        simp only [List.orderedInsert]
        rw [if_pos haz]

theorem taggedRegistry_perm (regs : List CleanupHandler) :
    (taggedRegistry regs).Perm (tag 0 regs) := by
  unfold taggedRegistry
  generalize tag 0 regs = l
  have main : ∀ (l : List (Nat × CleanupHandler)) (acc : List (Nat × CleanupHandler)),
      (l.foldl (fun acc x => List.insertionSort lePrioT (acc ++ [x])) acc).Perm (acc ++ l) := by
    intro l
    induction l with
    | nil => intro acc; simp
    | cons x xs ih =>
      intro acc
      simp only [List.foldl_cons]
      refine (ih _).trans ?_
      have hstep := (List.perm_insertionSort lePrioT (acc ++ [x])).append_right xs
      rw [List.append_assoc] at hstep
      exact hstep
  simpa using main l []

/-- The iterated re-sort of the source equals the one-shot stable sort of
the specification. -/
theorem taggedRegistry_eq_stableSortSpec (regs : List CleanupHandler) :
    taggedRegistry regs = stableSortSpec regs := by
  induction regs using List.reverseRecOn with
  | nil => rfl
  | append_singleton rs r ih =>
    have htag : tag 0 (rs ++ [r]) = tag 0 rs ++ [(rs.length, r)] := by
      simpa using tag_append r rs 0
    have hfold : taggedRegistry (rs ++ [r]) =
        List.insertionSort lePrioT (taggedRegistry rs ++ [(rs.length, r)]) := by
      unfold taggedRegistry
      rw [htag, List.foldl_append]
      rfl
    have hspec_sorted : (stableSortSpec rs).Sorted lexRel :=
      List.sorted_insertionSort lexRel (tag 0 rs)
    have hidx : ∀ p ∈ stableSortSpec rs, p.1 < rs.length := by
      intro p hp
      have : p ∈ tag 0 rs := (List.perm_insertionSort lexRel (tag 0 rs)).subset hp
      simpa using mem_tag_lt rs 0 p this
    rw [hfold, ih, insertionSort_append_last hspec_sorted hidx]
    have hperm0 : (List.orderedInsert lexRel (rs.length, r) (stableSortSpec rs)).Perm
        (tag 0 (rs ++ [r])) := by
      refine (List.perm_orderedInsert lexRel (rs.length, r) (stableSortSpec rs)).trans ?_
      refine ((List.perm_insertionSort lexRel (tag 0 rs)).cons (rs.length, r)).trans ?_
      rw [htag]
      exact (List.perm_append_singleton _ _).symm
    have hperm : (List.orderedInsert lexRel (rs.length, r) (stableSortSpec rs)).Perm
        (stableSortSpec (rs ++ [r])) :=
      hperm0.trans (List.perm_insertionSort lexRel _).symm
    have hsorted₁ : (List.orderedInsert lexRel (rs.length, r) (stableSortSpec rs)).Sorted lexRel :=
      List.Sorted.orderedInsert (rs.length, r) (stableSortSpec rs) hspec_sorted
    have hsorted₂ : (stableSortSpec (rs ++ [r])).Sorted lexRel :=
      List.sorted_insertionSort lexRel _
    have hnodup : ((List.orderedInsert lexRel (rs.length, r) (stableSortSpec rs)).map
        Prod.fst).Nodup := by
      rw [(hperm0.map Prod.fst).nodup_iff, map_fst_tag]
      exact List.nodup_range' 0 (rs ++ [r]).length
    exact sorted_lex_unique hperm hsorted₁ hsorted₂ hnodup

/-- One registration step of the source, at the level of the
`CoordState` fold used in `main` (each component calls
`register_cleanup_handler` once during startup). -/
def registrationInput := List (String × HandlerId × Int)

/-- The handler record `register_cleanup_handler` constructs for a
registration request (timeout left at its default `5.0`). -/
def mkHandler (r : String × HandlerId × Int) : CleanupHandler :=
  { name := r.1, handler := r.2.1, priority := r.2.2, timeout := 5 }

/-- The registry contents after performing a sequence of
`register_cleanup_handler` calls on a fresh coordinator. -/
def registryAfter (regs : List (String × HandlerId × Int)) : List CleanupHandler :=
  (regs.foldl (fun st r => register_cleanup_handler st r.1 r.2.1 r.2.2)
    ({} : CoordState)).cleanup_handlers

theorem step_corr (acc : List (Nat × CleanupHandler)) (x : Nat × CleanupHandler) :
    (List.insertionSort lePrioT (acc ++ [x])).map Prod.snd =
      List.insertionSort lePrio (acc.map Prod.snd ++ [x.2]) := by
  have := List.map_insertionSort lePrioT lePrio Prod.snd (acc ++ [x])
    (fun a _ b _ => Iff.rfl)
  rw [this, List.map_append]
  rfl

theorem fold_corr :
    ∀ (tl : List (Nat × CleanupHandler)) (acc : List (Nat × CleanupHandler)),
      ((tl.foldl (fun a x => List.insertionSort lePrioT (a ++ [x])) acc).map Prod.snd) =
        (tl.map Prod.snd).foldl (fun a h => List.insertionSort lePrio (a ++ [h]))
          (acc.map Prod.snd) := by
  intro tl
  induction tl with
  | nil => intro acc; rfl
  | cons x xs ih =>
    intro acc
    simp only [List.foldl_cons, List.map_cons]
    rw [ih, step_corr]

theorem registryAfter_eq_fold (regs : List (String × HandlerId × Int)) :
    registryAfter regs =
      (regs.map mkHandler).foldl (fun a h => List.insertionSort lePrio (a ++ [h])) [] := by
  unfold registryAfter
  have main : ∀ (l : List (String × HandlerId × Int)) (st : CoordState),
      (l.foldl (fun st r => register_cleanup_handler st r.1 r.2.1 r.2.2) st).cleanup_handlers =
        (l.map mkHandler).foldl (fun a h => List.insertionSort lePrio (a ++ [h]))
          st.cleanup_handlers := by
    intro l
    induction l with
    | nil => intro st; rfl
    | cons r rs ih =>
      intro st
      simp only [List.foldl_cons, List.map_cons]
      rw [ih]
      rfl
  exact main regs {}

/-- The untagged registry of the source model is the `Prod.snd`
projection of the one-shot stable sort of the tagged registration
sequence. -/
theorem registryAfter_eq_spec (regs : List (String × HandlerId × Int)) :
    registryAfter regs = (stableSortSpec (regs.map mkHandler)).map Prod.snd := by
  rw [registryAfter_eq_fold, ← taggedRegistry_eq_stableSortSpec]
  unfold taggedRegistry
  rw [fold_corr, map_snd_tag]
  rfl

theorem cleanup_started_eq (context : ShutdownContext) (handlers : List CleanupHandler)
    (env : HandlerId → Behavior) :
    (cleanup_resources context handlers env).started = handlers.map (·.name) := by
  unfold cleanup_resources
  dsimp only
  split <;> rfl

/-! ## Claim theorems -/

/-- C1 counterexample: `initiate_shutdown` is not idempotent for forced
later calls.  After registering one action and completing a first
(non-forced) shutdown, a second call with `force=True` passes the guard
`if self._shutdown_requested and not force` and re-runs the whole
protocol: it returns a second `ShutdownRun` whose report started the
registered action `"a"` again, an observable effect beyond logging. -/
theorem c1_later_forced_call_reruns_cleanup :
    Option.map (fun run => run.report.started)
      (initiate_shutdown
        (initiate_shutdown (register_cleanup_handler {} "a" 0 0)
          "SIGINT" false 0 (fun _ => Behavior.ok 1)).1
        "SIGINT" true 1 (fun _ => Behavior.ok 1)).2 = some ["a"] := by
  decide

/-- C1 (amended): only a later non-forced call is a no-op — if shutdown
has already been requested and `force` is false, `initiate_shutdown`
returns immediately with the state unchanged and no cleanup run; a later
forced call, by contrast, always runs the full shutdown sequence
(including `_cleanup_resources`) again, so cleanup can run more than once
per process. -/
theorem c1_nonforced_idempotent_forced_reruns (st : CoordState) (signal : String)
    (now : ℚ) (env : HandlerId → Behavior) (h : st.shutdown_requested = true) :
    initiate_shutdown st signal false now env = (st, none) ∧
    (initiate_shutdown st signal true now env).2.isSome = true := by
  constructor
  · unfold initiate_shutdown
    rw [h]
    rfl
  · unfold initiate_shutdown
    rw [h]
    rfl

/-- Witness for C1 (amended) at a concrete already-shut-down state. -/
theorem c1_nonforced_idempotent_forced_reruns_witness :
    initiate_shutdown { shutdown_requested := true } "SIGINT" false 0
        (fun _ => Behavior.ok 1) = ({ shutdown_requested := true }, none) ∧
    (initiate_shutdown { shutdown_requested := true } "SIGINT" true 0
        (fun _ => Behavior.ok 1)).2.isSome = true :=
  c1_nonforced_idempotent_forced_reruns { shutdown_requested := true } "SIGINT" 0
    (fun _ => Behavior.ok 1) rfl

/-- C2 counterexample: the per-action `timeout` field (default 5) is
never applied.  A single action whose handler settles only after 7
seconds — beyond its individual 5-second timeout but inside the
aggregate 10-second timeout — is recorded as completed, not cancelled
and not recorded as timed out. -/
theorem c2_individual_timeout_not_enforced :
    ({ name := "a", handler := 0 } : CleanupHandler).timeout = 5 ∧
    (5 : ℚ) < 7 ∧
    ({ signal_type := "SIGINT", timestamp := 0 } : ShutdownContext).timeout_seconds = 10 ∧
    (cleanup_resources { signal_type := "SIGINT", timestamp := 0 }
      [{ name := "a", handler := 0 }] (fun _ => Behavior.ok 7)).records =
      [ActionRecord.completed "a"] := by
  refine ⟨rfl, by decide, rfl, by decide⟩

/-- C2 (amended): cleanup actions are started with no individual timeout
wrapper at all — `_cleanup_resources` never reads `CleanupHandler.timeout`,
so its entire result is invariant under arbitrary changes to every
handler's `timeout` field; an action is only ever cut short by the
aggregate `timeout_seconds` of the `ShutdownContext`. -/
theorem c2_cleanup_ignores_handler_timeout (context : ShutdownContext)
    (handlers : List CleanupHandler) (env : HandlerId → Behavior)
    (f : CleanupHandler → ℚ) :
    cleanup_resources context (handlers.map fun h => { h with timeout := f h }) env =
      cleanup_resources context handlers env := by
  have hfin : finishTime env (handlers.map fun h => { h with timeout := f h }) =
      finishTime env handlers := by
    induction handlers with
    | nil => rfl
    | cons h hs ih => simp only [List.map_cons, finishTime, ih]
  unfold cleanup_resources
  dsimp only
  rw [List.all_map]
  have hcond : ((fun (h : CleanupHandler) =>
        Behavior.settledWithin context.timeout_seconds (env h.handler)) ∘
      fun (h : CleanupHandler) => { h with timeout := f h }) =
        fun (h : CleanupHandler) =>
          Behavior.settledWithin context.timeout_seconds (env h.handler) := rfl
  rw [hcond]
  split
  · simp only [List.map_map, hfin]
    rfl
  · simp only [List.map_map, List.filterMap_map]
    rfl

/-- C3: for every registration sequence, the registry that results from
the source's incremental append-and-stable-resort is exactly the one-shot
stable sort of the registration sequence by descending priority with ties
broken by registration index (`stableSortSpec` under `lexRel`), and the
cleanup start order (the order tasks are created in `_cleanup_resources`)
is the name sequence of that stable sort; the order is a function of the
registration sequence, hence deterministic. -/
theorem c3_start_order_is_stable_sort (regs : List (String × HandlerId × Int))
    (context : ShutdownContext) (env : HandlerId → Behavior) :
    registryAfter regs = (stableSortSpec (regs.map mkHandler)).map Prod.snd ∧
    (cleanup_resources context (registryAfter regs) env).started =
      ((stableSortSpec (regs.map mkHandler)).map Prod.snd).map (·.name) := by
  refine ⟨registryAfter_eq_spec regs, ?_⟩
  rw [cleanup_started_eq, registryAfter_eq_spec]

/-- C8 counterexample: `register_cleanup_handler` performs no
duplicate-name check.  Registering the name `"a"` twice appends both
entries: the registry is changed by the second call and afterwards holds
two handlers named `"a"`, so registered names are not unique. -/
theorem c8_duplicate_names_accepted :
    (CoordState.cleanup_handlers
        (register_cleanup_handler (register_cleanup_handler {} "a" 0 0) "a" 1 0)).map
      (·.name) = ["a", "a"] ∧
    ¬ ((CoordState.cleanup_handlers
        (register_cleanup_handler (register_cleanup_handler {} "a" 0 0) "a" 1 0)).map
      (·.name)).Nodup ∧
    CoordState.cleanup_handlers
        (register_cleanup_handler (register_cleanup_handler {} "a" 0 0) "a" 1 0) ≠
      (register_cleanup_handler {} "a" 0 0).cleanup_handlers := by
  refine ⟨by decide, by decide, by decide⟩

/-- C8 (amended): `register_cleanup_handler` never rejects a
registration: whatever the current registry (duplicate name or not), it
appends the new handler (with the default timeout 5) and re-sorts, so the
resulting registry is a permutation of the old one plus the new entry and
always grows by exactly one. -/
theorem c8_register_always_appends (st : CoordState) (name : String)
    (handler : HandlerId) (priority : Int) :
    ((register_cleanup_handler st name handler priority).cleanup_handlers).Perm
      ({ name := name, handler := handler, priority := priority, timeout := 5 } ::
        st.cleanup_handlers) ∧
    (register_cleanup_handler st name handler priority).cleanup_handlers.length =
      st.cleanup_handlers.length + 1 := by
  constructor
  · exact (List.perm_insertionSort lePrio _).trans (List.perm_append_singleton _ _)
  · rw [show (register_cleanup_handler st name handler priority).cleanup_handlers =
      List.insertionSort lePrio (st.cleanup_handlers ++
        [{ name := name, handler := handler, priority := priority, timeout := 5 }]) from rfl]
    rw [List.length_insertionSort, List.length_append]
    rfl

/-- C4: the Signal Observer's interrupt classification, tested from its
initial state.  A first SIGINT never carries `forced`; a second SIGINT
whose timestamp is less than the 2-second rapid window after the first
carries `forced = true`; a second SIGINT more than the window after the
first carries `forced = false`. -/
theorem c4_rapid_sigint_classification (t1 t2 t3 t4 : ℚ)
    (h12 : t2 - t1 < rapid_signal_window) (h34 : rapid_signal_window < t4 - t3) :
    (handle_sigint ({} : SignalHandlerState) t1).2.2 = false ∧
    (handle_sigint (handle_sigint ({} : SignalHandlerState) t1).1 t2).2.2 = true ∧
    (handle_sigint ({} : SignalHandlerState) t3).2.2 = false ∧
    (handle_sigint (handle_sigint ({} : SignalHandlerState) t3).1 t4).2.2 = false := by
  refine ⟨rfl, ?_, rfl, ?_⟩
  · unfold handle_sigint
    dsimp only
    rw [if_pos h12]
    rfl
  · unfold handle_sigint
    dsimp only
    rw [if_neg (fun hlt => absurd (hlt.trans h34) (lt_irrefl _))]
    rfl

/-- Witness for C4 at concrete times: signals at 0 and 1 (0.5-window
scale: 1 second apart, inside the 2-second window) escalate; signals at
0 and 5 do not. -/
theorem c4_rapid_sigint_classification_witness :
    (handle_sigint (handle_sigint ({} : SignalHandlerState) 0).1 1).2.2 = true ∧
    (handle_sigint (handle_sigint ({} : SignalHandlerState) 0).1 5).2.2 = false :=
  ⟨(c4_rapid_sigint_classification 0 1 0 5
      (by norm_num [rapid_signal_window]) (by norm_num [rapid_signal_window])).2.1,
   (c4_rapid_sigint_classification 0 1 0 5
      (by norm_num [rapid_signal_window]) (by norm_num [rapid_signal_window])).2.2.2⟩

/-- Cleanup environment of the C5 counterexample: every cleanup callable
raises after 1 second. -/
def c5env : HandlerId → Behavior := fun _ => Behavior.err 1

/-- C5 scenario: `main` registers its two handlers, one SIGINT arrives at
time 0, both cleanup actions raise, the `try` body completes without an
unexpected exception. -/
def c5run : CoordState × List (Option ShutdownRun) × Nat := main_run c5env [0] false

/-- The records of the cleanup run of the C5 scenario. -/
def c5records : List ActionRecord :=
  ((c5run.2.1.getLast?.getD none).map (·.report.records)).getD []

/-- C5 counterexample: in a run where every registered cleanup action
fails (here both `"downloader"` and `"emby_client"` raise), the process
exit code is still 0 — `main` never inspects the cleanup outcomes, and
`sys.exit(1)` is reached only from the generic `except` clause. -/
theorem c5_exit_code_ignores_cleanup_failures :
    ActionRecord.failed "downloader" ∈ c5records ∧
    ActionRecord.failed "emby_client" ∈ c5records ∧
    c5run.2.2 = 0 := by
  refine ⟨by decide, by decide, rfl⟩

/-- C5 (amended): the exit code is 1 exactly when an unexpected exception
escapes the `try` body of `main`, and 0 otherwise; it does not depend on
the cleanup behaviours or on the delivered signals in any way. -/
theorem c5_exit_code_only_reflects_unexpected_error (env₁ env₂ : HandlerId → Behavior)
    (sigints₁ sigints₂ : List ℚ) (err : Bool) :
    (main_run env₁ sigints₁ err).2.2 = (main_run env₂ sigints₂ err).2.2 ∧
    (main_run env₁ sigints₁ false).2.2 = 0 ∧
    (main_run env₁ sigints₁ true).2.2 = 1 := by
  refine ⟨?_, rfl, rfl⟩
  show (if err then 1 else 0) = if err then 1 else 0
  rfl

/-- C6: the aggregate timeout is a hard backstop.  `ShutdownContext`
defaults `timeout_seconds` to 10, and whenever some registered action
does not settle within the aggregate timeout, `_cleanup_resources` still
reaches its final summary, its elapsed time is exactly the aggregate
timeout (it does not wait for the unsettled actions), and every
unsettled action is cancelled. -/
theorem c6_aggregate_timeout_completes_and_cancels :
    (∀ (s : String) (t : ℚ),
      ({ signal_type := s, timestamp := t } : ShutdownContext).timeout_seconds = 10) ∧
    ∀ (context : ShutdownContext) (handlers : List CleanupHandler)
      (env : HandlerId → Behavior),
      (∃ h ∈ handlers,
        (env h.handler).settledWithin context.timeout_seconds = false) →
      (cleanup_resources context handlers env).summaryPrinted = true ∧
      (cleanup_resources context handlers env).elapsed = context.timeout_seconds ∧
      ∀ h ∈ handlers, (env h.handler).settledWithin context.timeout_seconds = false →
        ActionRecord.cancelled h.name ∈ (cleanup_resources context handlers env).records := by
  refine ⟨fun s t => rfl, ?_⟩
  intro context handlers env hex
  have hnall : (handlers.all fun h =>
      (env h.handler).settledWithin context.timeout_seconds) = false := by
    rcases hex with ⟨h, hmem, hf⟩
    cases hall : handlers.all fun h =>
        (env h.handler).settledWithin context.timeout_seconds
    · rfl
    · have := List.all_eq_true.mp hall h hmem
      rw [hf] at this
      cases this
  have hres : cleanup_resources context handlers env =
      { started := handlers.map (·.name)
        records := handlers.filterMap fun h =>
          if (env h.handler).settledWithin context.timeout_seconds then none
          else some (.cancelled h.name)
        elapsed := context.timeout_seconds
        summaryPrinted := true } := by
    unfold cleanup_resources
    dsimp only
    rw [hnall]
    rfl
  rw [hres]
  refine ⟨rfl, rfl, ?_⟩
  intro h hmem hf
  refine List.mem_filterMap.mpr ⟨h, hmem, ?_⟩
  rw [hf]
  rfl

/-- Witness for C6: one never-settling action under the default context;
cleanup completes at the 10-second aggregate timeout with the action
cancelled. -/
theorem c6_aggregate_timeout_completes_and_cancels_witness :
    (cleanup_resources { signal_type := "SIGTERM", timestamp := 0 }
      [{ name := "a", handler := 0 }] (fun _ => Behavior.never)).summaryPrinted = true ∧
    (cleanup_resources { signal_type := "SIGTERM", timestamp := 0 }
      [{ name := "a", handler := 0 }] (fun _ => Behavior.never)).elapsed = 10 ∧
    ActionRecord.cancelled "a" ∈
      (cleanup_resources { signal_type := "SIGTERM", timestamp := 0 }
        [{ name := "a", handler := 0 }] (fun _ => Behavior.never)).records := by
  have h := c6_aggregate_timeout_completes_and_cancels.2
    { signal_type := "SIGTERM", timestamp := 0 } [{ name := "a", handler := 0 }]
    (fun _ => Behavior.never)
    ⟨{ name := "a", handler := 0 }, by decide, rfl⟩
  exact ⟨h.1, h.2.1, h.2.2 { name := "a", handler := 0 } (by decide) rfl⟩

/-- C7: no exception ever escapes `_cleanup_resources` (the summary line
is reached on every input), and when every action settles within the
aggregate timeout, the record list is the pointwise image of `recordOf`
— each action's record (`failed` with its error for a raising action,
`completed` otherwise) is a function of that action's own behaviour
alone, so one action raising cannot cancel, block, or alter the outcome
of any other. -/
theorem c7_failures_are_isolated :
    (∀ (context : ShutdownContext) (handlers : List CleanupHandler)
      (env : HandlerId → Behavior),
      (cleanup_resources context handlers env).summaryPrinted = true) ∧
    (∀ (context : ShutdownContext) (handlers : List CleanupHandler)
      (env : HandlerId → Behavior),
      (handlers.all fun h =>
        (env h.handler).settledWithin context.timeout_seconds) = true →
      (cleanup_resources context handlers env).records =
        handlers.map (recordOf context.timeout_seconds env)) ∧
    (∀ (T : ℚ) (env : HandlerId → Behavior) (h : CleanupHandler) (t : ℚ),
      env h.handler = Behavior.err t → t ≤ T →
      recordOf T env h = ActionRecord.failed h.name) ∧
    (∀ (T : ℚ) (env env' : HandlerId → Behavior) (h : CleanupHandler),
      env h.handler = env' h.handler → recordOf T env h = recordOf T env' h) := by
  refine ⟨?_, ?_, ?_, ?_⟩
  · intro context handlers env
    unfold cleanup_resources
    dsimp only
    split <;> rfl
  · intro context handlers env hall
    unfold cleanup_resources
    dsimp only
    rw [hall]
    rfl
  · intro T env h t he hle
    unfold recordOf
    rw [he]
    show (if decide (t ≤ T) = true then ActionRecord.failed h.name else _) = _
    rw [if_pos (by exact decide_eq_true hle)]
  · intro T env env' h he
    unfold recordOf
    rw [he]

/-- Witness for C7: one raising and one succeeding action, both inside
the aggregate timeout; the raising one is recorded failed, the other
completed. -/
theorem c7_failures_are_isolated_witness :
    (cleanup_resources { signal_type := "SIGINT", timestamp := 0 }
      [{ name := "bad", handler := 0 }, { name := "good", handler := 1 }]
      (fun i => if i = 0 then Behavior.err 1 else Behavior.ok 2)).records =
      [ActionRecord.failed "bad", ActionRecord.completed "good"] ∧
    (cleanup_resources { signal_type := "SIGINT", timestamp := 0 }
      [{ name := "bad", handler := 0 }, { name := "good", handler := 1 }]
      (fun i => if i = 0 then Behavior.err 1 else Behavior.ok 2)).summaryPrinted = true := by
  have h2 := c7_failures_are_isolated.2.1 { signal_type := "SIGINT", timestamp := 0 }
    [{ name := "bad", handler := 0 }, { name := "good", handler := 1 }]
    (fun i => if i = 0 then Behavior.err 1 else Behavior.ok 2) (by decide)
  have h1 := c7_failures_are_isolated.1 { signal_type := "SIGINT", timestamp := 0 }
    [{ name := "bad", handler := 0 }, { name := "good", handler := 1 }]
    (fun i => if i = 0 then Behavior.err 1 else Behavior.ok 2)
  exact ⟨by rw [h2]; decide, h1⟩

/-- C9 counterexample: cancellation is not a distinguished outcome at the
return-value level.  `download_file` returns the boolean `False` both
when it aborts because shutdown was requested at the first chunk
boundary (cancelled message printed, file removed) and when the request
itself fails with an HTTP error — the caller cannot tell the cancelled
outcome from the generic error outcome by the returned value. -/
theorem c9_cancelled_return_equals_error_return :
    (download_file true (fun _ => true) false [8192]).ret = false ∧
    (download_file true (fun _ => true) false [8192]).printedCancelled = true ∧
    (download_file true (fun _ => false) true [8192]).ret = false ∧
    (download_file true (fun _ => false) true [8192]).printedError = true ∧
    (download_file true (fun _ => true) false [8192]).ret =
      (download_file true (fun _ => false) true [8192]).ret := by
  refine ⟨rfl, rfl, rfl, rfl, rfl⟩

theorem downloadLoop_cancel (shut : Nat → Bool) :
    ∀ (chunks : List Nat) (i w k : Nat), k < chunks.length →
      shut (i + k) = true → (∀ j, j < k → shut (i + j) = false) →
      downloadLoop true shut chunks i w =
        { ret := false, fileExists := false, chunksWritten := w + k
          printedCancelled := true, printedComplete := false, printedError := false } := by
  intro chunks
  induction chunks with
  | nil =>
    intro i w k hk _ _
    exact absurd hk (by simp)
  | cons c rest ih =>
    intro i w k hk hshut hbefore
    cases k with
    | zero =>
      have hi : shut i = true := by simpa using hshut
      show (if true && shut i then _ else _) = _
      rw [hi]
      rfl
    | succ k' =>
      have hi : shut i = false := by
        have := hbefore 0 (Nat.succ_pos k')
        simpa using this
      show (if true && shut i then _ else _) = _
      rw [hi]
      show downloadLoop true shut rest (i + 1) (w + 1) = _
      have hk' : k' < rest.length := by
        simpa using Nat.lt_of_succ_lt_succ hk
      have hshut' : shut (i + 1 + k') = true := by
        have : i + 1 + k' = i + (k' + 1) := by omega
        rw [this]
        exact hshut
      have hbefore' : ∀ j, j < k' → shut (i + 1 + j) = false := by
        intro j hj
        have : i + 1 + j = i + (j + 1) := by omega
        rw [this]
        exact hbefore (j + 1) (by omega)
      rw [ih (i + 1) (w + 1) k' hk' hshut' hbefore']
      have : w + 1 + k' = w + (k' + 1) := by omega
      rw [this]

/-- C9 (amended): if shutdown has been requested when `download_file`
reaches a chunk boundary (the first boundary at which the poll returns
true), it stops consuming further input there, deletes the partially
written file, prints the cancelled message and returns `False` — the
same generic failure value it returns for error outcomes, distinguished
only by the console message, not by the returned value. -/
theorem c9_shutdown_cancels_download (chunks : List Nat) (shut : Nat → Bool) (k : Nat)
    (hk : k < chunks.length) (hshut : shut k = true)
    (hbefore : ∀ j, j < k → shut j = false) :
    download_file true shut false chunks =
      { ret := false, fileExists := false, chunksWritten := k
        printedCancelled := true, printedComplete := false, printedError := false } := by
  show downloadLoop true shut chunks 0 0 = _
  have h := downloadLoop_cancel shut chunks 0 0 k hk (by simpa using hshut)
    (fun j hj => by simpa using hbefore j hj)
  rw [h]
  simp

/-- Witness for C9 (amended): three chunks, shutdown first observed at
the second chunk boundary; one chunk was written, then the file is
deleted and `False` returned. -/
theorem c9_shutdown_cancels_download_witness :
    download_file true (fun j => decide (1 ≤ j)) false [8192, 8192, 8192] =
      { ret := false, fileExists := false, chunksWritten := 1
        printedCancelled := true, printedComplete := false, printedError := false } :=
  c9_shutdown_cancels_download [8192, 8192, 8192] (fun j => decide (1 ≤ j)) 1
    (by decide) (by decide) (by decide)

theorem coordStep_mono (env : HandlerId → Behavior) (st : CoordState) (op : CoordOp) :
    (st.shutdown_requested = true → (coordStep env st op).shutdown_requested = true) ∧
    (st.shutdown_event = true → (coordStep env st op).shutdown_event = true) := by
  cases op with
  | isShutdownRequested => exact ⟨id, id⟩
  | getShutdownEvent => exact ⟨id, id⟩
  | setCurrentOperation s => exact ⟨id, id⟩
  | registerCleanupHandler n h p => exact ⟨id, id⟩
  | initiateShutdown s f now =>
    show (st.shutdown_requested = true →
        (initiate_shutdown st s f now env).1.shutdown_requested = true) ∧
      (st.shutdown_event = true →
        (initiate_shutdown st s f now env).1.shutdown_event = true)
    unfold initiate_shutdown
    by_cases hc : (st.shutdown_requested && !f) = true
    · rw [if_pos hc]
      exact ⟨id, id⟩
    · rw [if_neg hc]
      exact ⟨fun _ => rfl, fun _ => rfl⟩

/-- C10: the shutdown flag and the shutdown event are monotone.  Once
`is_shutdown_requested` returns true (resp. once the event is set), it
stays true across every sequence of coordinator operations — no
operation of `ShutdownCoordinator` ever resets the flag or clears the
event. -/
theorem c10_shutdown_flag_monotone (env : HandlerId → Behavior) (st : CoordState)
    (ops : List CoordOp) :
    (is_shutdown_requested st = true →
      is_shutdown_requested (ops.foldl (coordStep env) st) = true) ∧
    (st.shutdown_event = true → (ops.foldl (coordStep env) st).shutdown_event = true) := by
  induction ops generalizing st with
  | nil => exact ⟨id, id⟩
  | cons op rest ih =>
    refine ⟨fun h => ?_, fun h => ?_⟩
    · exact (ih (coordStep env st op)).1 ((coordStep_mono env st op).1 h)
    · exact (ih (coordStep env st op)).2 ((coordStep_mono env st op).2 h)

/-- Witness for C10: from an already-shut-down state, a later sequence of
operations — including a registration and a further non-forced
shutdown request — leaves the flag and the event set. -/
theorem c10_shutdown_flag_monotone_witness :
    is_shutdown_requested
      ([CoordOp.setCurrentOperation "x", CoordOp.registerCleanupHandler "a" 0 0,
        CoordOp.initiateShutdown "SIGINT" false 3].foldl
        (coordStep (fun _ => Behavior.ok 1))
        { shutdown_requested := true, shutdown_event := true }) = true ∧
    ([CoordOp.setCurrentOperation "x", CoordOp.registerCleanupHandler "a" 0 0,
        CoordOp.initiateShutdown "SIGINT" false 3].foldl
        (coordStep (fun _ => Behavior.ok 1))
        { shutdown_requested := true, shutdown_event := true }).shutdown_event = true :=
  ⟨(c10_shutdown_flag_monotone (fun _ => Behavior.ok 1)
      { shutdown_requested := true, shutdown_event := true } _).1 rfl,
   (c10_shutdown_flag_monotone (fun _ => Behavior.ok 1)
      { shutdown_requested := true, shutdown_event := true } _).2 rfl⟩

end EmbyShutdown
